import Mathlib

/-!
Verification of the capture/provenance core of kuse_cowork.

The Rust source is shallowly embedded: timestamps (i64 epoch milliseconds)
become Int, f32 scores become exact rationals interpreting the literal
decimal constants of the source (0.01 = 1/100, 0.3 = 3/10, ...), Rust i64
division (truncation toward zero) becomes Int.tdiv, and the i32 cast in
work-block durations becomes an explicit wrap into the signed 32-bit range.
Mutex-guarded state becomes explicit state passing; wall-clock reads become
an explicit time argument.  Nondeterministic identifiers (uuid) are taken
as parameters, as is the cryptographic digest function (an abstracted
interface per the source).
-/

namespace KuseCowork

/-! ### Enumerations (capture/types.rs, workstream/types.rs) -/

/-- Source type for source linking (capture/types.rs). -/
inductive SourceType where
  | Webpage
  | Clipboard
  | AIExchange
  | Search
  | Document
deriving DecidableEq, Repr

/-- How the source contributed to the content (capture/types.rs). -/
inductive ContributionType where
  | DirectCopy
  | Referenced
  | Inspired
  | AIAssisted
deriving DecidableEq, Repr

/-- Event type for buffered events (workstream/types.rs). -/
inductive EventType where
  | Edit
  | Browse
  | Search
  | Tool
  | Focus
  | Blur
  | Save
deriving DecidableEq, Repr

/-- Context type for work blocks (workstream/types.rs). -/
inductive ContextType where
  | Document
  | Task
  | Browser
  | Manual
  | Mixed
deriving DecidableEq, Repr

/-! ### Active source tracker (capture/source_link.rs) -/

/-- Decay rate per second, the f32 constant 0.01 of source_link.rs. -/
def DECAY_RATE_PER_SEC : ℚ := 1 / 100

/-- Minimum relevance threshold for linking, the f32 constant 0.3. -/
def MIN_RELEVANCE_THRESHOLD : ℚ := 3 / 10

/-- Maximum number of active sources to track. -/
def MAX_ACTIVE_SOURCES : Nat := 30

/-- Active source entry (capture/types.rs). -/
structure ActiveSourceEntry where
  source_type : SourceType
  source_id : String
  title : Option String
  activated_at : ℤ
  relevance : ℚ
deriving DecidableEq, Repr

/-- Rust f32::max on finite values: returns the other operand when self is
smaller.  Written with an explicit branch so that kernel evaluation works;
it agrees with the lattice max (see f32_max_eq_max). -/
def f32_max (x y : ℚ) : ℚ :=
  if x < y then y else x

theorem f32_max_eq_max (x y : ℚ) : f32_max x y = max x y := by
  unfold f32_max
  rcases lt_or_ge x y with h | h
  · rw [if_pos h, max_eq_right h.le]
  · rw [if_neg (not_lt.mpr h), max_eq_left h]

/-- Per-entry decayed relevance, the loop body of
ActiveSourceTracker::apply_decay_internal: elapsed seconds are the i64
difference divided by 1000 with truncation toward zero, and the new
relevance is (1.0 - DECAY_RATE_PER_SEC * elapsed_secs).max(0.0). -/
def decayed_relevance (activated_at now : ℤ) : ℚ :=
  f32_max (1 - DECAY_RATE_PER_SEC * ((now - activated_at).tdiv 1000 : ℤ)) 0

/-- ActiveSourceTracker::apply_decay_internal. -/
def apply_decay_internal (sources : List ActiveSourceEntry) (now : ℤ) :
    List ActiveSourceEntry :=
  sources.map (fun s => { s with relevance := decayed_relevance s.activated_at now })

/-- Minimum relevance value among a list of entries (0 on the empty list,
which the source never queries). -/
def min_relevance : List ActiveSourceEntry → ℚ
  | [] => 0
  | [s] => s.relevance
  | s :: rest => min s.relevance (min_relevance rest)

/-- Index returned by the min_by call of ActiveSourceTracker::activate_source:
Rust Iterator::min_by keeps the first element among equal minima, so this is
the first index attaining the minimum relevance. -/
def min_by_relevance_idx : List ActiveSourceEntry → Nat
  | [] => 0
  | [_] => 0
  | s :: rest =>
    if s.relevance ≤ min_relevance rest then 0 else min_by_relevance_idx rest + 1

/-- In-place refresh of the first entry whose source_id matches, as done by
the iter_mut().find branch of activate_source. -/
def refresh_first (source_id : String) (title : Option String) (now : ℤ) :
    List ActiveSourceEntry → List ActiveSourceEntry
  | [] => []
  | s :: rest =>
    if s.source_id = source_id then
      { s with relevance := 1, activated_at := now, title := title } :: rest
    else
      s :: refresh_first source_id title now rest

/-- ActiveSourceTracker::activate_source. -/
def activate_source (sources : List ActiveSourceEntry) (source_type : SourceType)
    (source_id : String) (title : Option String) (now : ℤ) :
    List ActiveSourceEntry :=
  if sources.any (fun s => s.source_id = source_id) then
    refresh_first source_id title now sources
  else
    let entry : ActiveSourceEntry :=
      { source_type := source_type, source_id := source_id, title := title,
        activated_at := now, relevance := 1 }
    if MAX_ACTIVE_SOURCES ≤ sources.length then
      let decayed := apply_decay_internal sources now
      decayed.eraseIdx (min_by_relevance_idx decayed) ++ [entry]
    else
      sources ++ [entry]

/-- ActiveSourceTracker::get_active_sources: recompute decay at the given
instant, keep entries with relevance at least the threshold. -/
def get_active_sources (sources : List ActiveSourceEntry) (now : ℤ)
    (min_relevance_arg : Option ℚ) : List ActiveSourceEntry :=
  let threshold := min_relevance_arg.getD MIN_RELEVANCE_THRESHOLD
  (apply_decay_internal sources now).filter (fun s => threshold ≤ s.relevance)

/-! ### Helper lemmas on truncating division and the tracker -/

/-- Rust i64 division truncates toward zero and is monotone in the dividend
for a positive divisor. -/
theorem tdiv_mono_left {a b d : ℤ} (hd : 0 < d) (h : a ≤ b) :
    a.tdiv d ≤ b.tdiv d := by
  rcases le_or_lt 0 a with ha | ha
  · rw [Int.tdiv_eq_ediv ha hd.le, Int.tdiv_eq_ediv (le_trans ha h) hd.le]
    exact Int.ediv_le_ediv hd h
  · rcases le_or_lt 0 b with hb | hb
    · have h1 : a.tdiv d ≤ 0 := by
        have h2 := Int.tdiv_nonneg (a := -a) (b := d) (by omega) hd.le
        rw [Int.neg_tdiv] at h2
        omega
      exact le_trans h1 (Int.tdiv_nonneg hb hd.le)
    · have e1 : a.tdiv d = -((-a).tdiv d) := by rw [Int.neg_tdiv]; ring
      have e2 : b.tdiv d = -((-b).tdiv d) := by rw [Int.neg_tdiv]; ring
      rw [e1, e2, Int.tdiv_eq_ediv (by omega) hd.le,
        Int.tdiv_eq_ediv (by omega) hd.le]
      have h3 := Int.ediv_le_ediv hd (show -b ≤ -a by omega)
      omega

theorem decayed_relevance_nonneg (a now : ℤ) : 0 ≤ decayed_relevance a now := by
  unfold decayed_relevance
  rw [f32_max_eq_max]
  exact le_max_right _ _

theorem decayed_relevance_le_one {a now : ℤ} (h : a ≤ now) :
    decayed_relevance a now ≤ 1 := by
  unfold decayed_relevance
  rw [f32_max_eq_max]
  have h1 : (0 : ℤ) ≤ (now - a).tdiv 1000 :=
    Int.tdiv_nonneg (by omega) (by norm_num)
  have h2 : (0 : ℚ) ≤ DECAY_RATE_PER_SEC * ((now - a).tdiv 1000 : ℤ) := by
    have h3 : (0 : ℚ) ≤ ((now - a).tdiv 1000 : ℤ) := by exact_mod_cast h1
    have h4 : (0 : ℚ) ≤ DECAY_RATE_PER_SEC := by norm_num [DECAY_RATE_PER_SEC]
    exact mul_nonneg h4 h3
  rw [max_le_iff]
  constructor
  · linarith
  · norm_num

theorem decayed_relevance_antitone {a t1 t2 : ℤ} (h : t1 ≤ t2) :
    decayed_relevance a t2 ≤ decayed_relevance a t1 := by
  unfold decayed_relevance
  rw [f32_max_eq_max, f32_max_eq_max]
  have h1 : (t1 - a).tdiv 1000 ≤ (t2 - a).tdiv 1000 :=
    tdiv_mono_left (by norm_num) (by omega)
  have h2 : ((t1 - a).tdiv 1000 : ℚ) ≤ ((t2 - a).tdiv 1000 : ℚ) := by
    exact_mod_cast h1
  have h3 : 1 - DECAY_RATE_PER_SEC * ((t2 - a).tdiv 1000 : ℤ) ≤
      1 - DECAY_RATE_PER_SEC * ((t1 - a).tdiv 1000 : ℤ) := by
    unfold DECAY_RATE_PER_SEC
    nlinarith
  exact max_le_max h3 (le_refl 0)

theorem decayed_relevance_zero {a now : ℤ} (h : a + 100000 ≤ now) :
    decayed_relevance a now = 0 := by
  unfold decayed_relevance
  rw [f32_max_eq_max]
  have h1 : (100 : ℤ) ≤ (now - a).tdiv 1000 := by
    have h2 : (100000 : ℤ).tdiv 1000 ≤ (now - a).tdiv 1000 :=
      tdiv_mono_left (by norm_num) (by omega)
    norm_num at h2
    exact h2
  have h2 : (100 : ℚ) ≤ ((now - a).tdiv 1000 : ℤ) := by exact_mod_cast h1
  have h3 : 1 - DECAY_RATE_PER_SEC * ((now - a).tdiv 1000 : ℤ) ≤ 0 := by
    unfold DECAY_RATE_PER_SEC
    nlinarith
  exact max_eq_right h3

theorem min_relevance_le {l : List ActiveSourceEntry} {s : ActiveSourceEntry}
    (hs : s ∈ l) : min_relevance l ≤ s.relevance := by
  induction l with
  | nil => cases hs
  | cons a rest ih =>
    cases rest with
    | nil =>
      rcases List.mem_singleton.mp hs with rfl
      exact le_refl _
    | cons b t =>
      show min a.relevance (min_relevance (b :: t)) ≤ s.relevance
      rcases List.mem_cons.mp hs with rfl | hs2
      · exact min_le_left _ _
      · exact le_trans (min_le_right _ _) (ih hs2)

theorem min_by_relevance_idx_lt {l : List ActiveSourceEntry} (h : l ≠ []) :
    min_by_relevance_idx l < l.length := by
  induction l with
  | nil => exact absurd rfl h
  | cons a rest ih =>
    cases rest with
    | nil => exact Nat.zero_lt_one
    | cons b t =>
      show (if a.relevance ≤ min_relevance (b :: t) then 0
        else min_by_relevance_idx (b :: t) + 1) < (a :: b :: t).length
      split
      · simp
      · have h2 := ih (by simp)
        simp only [List.length_cons] at h2 ⊢
        omega

theorem relevance_at_min_idx {l : List ActiveSourceEntry} (h : l ≠ []) :
    ∃ s, l[min_by_relevance_idx l]? = some s ∧ s.relevance = min_relevance l := by
  induction l with
  | nil => exact absurd rfl h
  | cons a rest ih =>
    cases rest with
    | nil => exact ⟨a, rfl, rfl⟩
    | cons b t =>
      by_cases hle : a.relevance ≤ min_relevance (b :: t)
      · have hidx : min_by_relevance_idx (a :: b :: t) = 0 := by
          show (if a.relevance ≤ min_relevance (b :: t) then 0
            else min_by_relevance_idx (b :: t) + 1) = 0
          simp [hle]
        refine ⟨a, by rw [hidx]; rfl, ?_⟩
        show a.relevance = min a.relevance (min_relevance (b :: t))
        exact (min_eq_left hle).symm
      · have hidx : min_by_relevance_idx (a :: b :: t) =
            min_by_relevance_idx (b :: t) + 1 := by
          show (if a.relevance ≤ min_relevance (b :: t) then 0
            else min_by_relevance_idx (b :: t) + 1) = _
          simp [hle]
        obtain ⟨s, hs, hrel⟩ := ih (by simp)
        refine ⟨s, ?_, ?_⟩
        · rw [hidx, List.getElem?_cons_succ]
          exact hs
        · rw [hrel]
          show min_relevance (b :: t) = min a.relevance (min_relevance (b :: t))
          exact (min_eq_right (le_of_not_le hle)).symm

theorem min_lt_before_min_idx {l : List ActiveSourceEntry} {j : Nat}
    (hj : j < min_by_relevance_idx l) {s : ActiveSourceEntry}
    (hs : l[j]? = some s) : min_relevance l < s.relevance := by
  induction l generalizing j with
  | nil => simp at hs
  | cons a rest ih =>
    cases rest with
    | nil => simp [min_by_relevance_idx] at hj
    | cons b t =>
      by_cases hle : a.relevance ≤ min_relevance (b :: t)
      · have hidx : min_by_relevance_idx (a :: b :: t) = 0 := by
          show (if a.relevance ≤ min_relevance (b :: t) then 0
            else min_by_relevance_idx (b :: t) + 1) = 0
          simp [hle]
        rw [hidx] at hj
        omega
      · have hidx : min_by_relevance_idx (a :: b :: t) =
            min_by_relevance_idx (b :: t) + 1 := by
          show (if a.relevance ≤ min_relevance (b :: t) then 0
            else min_by_relevance_idx (b :: t) + 1) = _
          simp [hle]
        have hmin : min_relevance (a :: b :: t) = min_relevance (b :: t) := by
          show min a.relevance (min_relevance (b :: t)) = _
          exact min_eq_right (le_of_not_le hle)
        rw [hidx] at hj
        cases j with
        | zero =>
          rw [List.getElem?_cons_zero] at hs
          injection hs with hs
          subst hs
          rw [hmin]
          exact lt_of_not_le hle
        | succ k =>
          have hk : k < min_by_relevance_idx (b :: t) := by omega
          rw [List.getElem?_cons_succ] at hs
          rw [hmin]
          exact ih hk hs

/-! ### Claim C2: eviction at capacity -/

/-- Concrete tracker state for the eviction tie-break analysis: entry at
position 0 was refreshed more recently (activated_at = 200000) than the
entry at position 1 (activated_at = 100000), but both have fully decayed at
time 1000000; the 28 fillers are fresh. -/
def c2_strs : List String :=
  ["f01", "f02", "f03", "f04", "f05", "f06", "f07", "f08", "f09", "f10",
   "f11", "f12", "f13", "f14", "f15", "f16", "f17", "f18", "f19", "f20",
   "f21", "f22", "f23", "f24", "f25", "f26", "f27", "f28"]

def c2_filler (sid : String) : ActiveSourceEntry :=
  { source_type := SourceType.Webpage, source_id := sid,
    title := none, activated_at := 990000, relevance := 1 }

def c2_entry_a : ActiveSourceEntry :=
  { source_type := SourceType.Webpage, source_id := "a", title := none,
    activated_at := 200000, relevance := 1 }

def c2_entry_b : ActiveSourceEntry :=
  { source_type := SourceType.Webpage, source_id := "b", title := none,
    activated_at := 100000, relevance := 1 }

def c2_sources : List ActiveSourceEntry :=
  c2_entry_a :: c2_entry_b :: c2_strs.map c2_filler

def c2_now : ℤ := 1000000

/-- Decayed image of c2_sources at c2_now: entries at positions 0 and 1 have
fully decayed to relevance 0, the 28 fillers decay to 9/10. -/
def c2_decayed : List ActiveSourceEntry :=
  { c2_entry_a with relevance := 0 } ::
  { c2_entry_b with relevance := 0 } ::
  c2_strs.map (fun sid => { c2_filler sid with relevance := 9/10 })

theorem c2_decay_eval : apply_decay_internal c2_sources c2_now = c2_decayed := by
  unfold apply_decay_internal c2_sources c2_decayed
  simp only [List.map_cons, List.map_map]
  refine congrArg₂ _ ?_ (congrArg₂ _ ?_ ?_)
  · show { c2_entry_a with
      relevance := decayed_relevance c2_entry_a.activated_at c2_now } = _
    norm_num [c2_entry_a, c2_now, decayed_relevance, f32_max,
      DECAY_RATE_PER_SEC, show ((800000 : ℤ)).tdiv 1000 = 800 from rfl]
  · show { c2_entry_b with
      relevance := decayed_relevance c2_entry_b.activated_at c2_now } = _
    norm_num [c2_entry_b, c2_now, decayed_relevance, f32_max,
      DECAY_RATE_PER_SEC, show ((900000 : ℤ)).tdiv 1000 = 900 from rfl]
  · refine List.map_congr_left ?_
    intro sid _
    show { c2_filler sid with
      relevance := decayed_relevance (c2_filler sid).activated_at c2_now } = _
    norm_num [c2_filler, c2_now, decayed_relevance, f32_max,
      DECAY_RATE_PER_SEC, show ((10000 : ℤ)).tdiv 1000 = 10 from rfl]

set_option maxRecDepth 8000 in
theorem c2_min_relevance_eval : min_relevance c2_decayed = 0 ∧
    min_by_relevance_idx c2_decayed = 0 := by
  have htail : min_relevance ({ c2_entry_b with relevance := 0 } ::
      c2_strs.map (fun sid => { c2_filler sid with relevance := 9/10 })) = 0 := by
    simp only [c2_strs, List.map_cons, List.map_nil]
    norm_num [min_relevance, c2_entry_b, c2_filler]
  constructor
  · rw [show min_relevance c2_decayed =
      min ({ c2_entry_a with relevance := 0 }).relevance
        (min_relevance ({ c2_entry_b with relevance := 0 } ::
          c2_strs.map (fun sid => { c2_filler sid with relevance := 9/10 })))
      from rfl, htail]
    norm_num
  · rw [show min_by_relevance_idx c2_decayed =
      (if (0 : ℚ) ≤
        min_relevance ({ c2_entry_b with relevance := 0 } ::
          c2_strs.map (fun sid => { c2_filler sid with relevance := 9/10 }))
      then 0
      else min_by_relevance_idx ({ c2_entry_b with relevance := 0 } ::
        c2_strs.map (fun sid => { c2_filler sid with relevance := 9/10 })) + 1)
      from rfl, htail]
    norm_num

def c2_entry_z : ActiveSourceEntry :=
  { source_type := SourceType.Webpage, source_id := "z", title := none,
    activated_at := c2_now, relevance := 1 }

theorem c2_activate_eval :
    activate_source c2_sources SourceType.Webpage "z" none c2_now =
      { c2_entry_b with relevance := 0 } ::
      c2_strs.map (fun sid => { c2_filler sid with relevance := 9/10 }) ++
      [c2_entry_z] := by
  have hany : c2_sources.any (fun s => s.source_id = "z") = false := by decide
  have hcap : MAX_ACTIVE_SOURCES ≤ c2_sources.length := by decide
  unfold activate_source
  rw [hany]
  simp only [Bool.false_eq_true, if_false, if_pos hcap]
  rw [c2_decay_eval, c2_min_relevance_eval.2]
  rfl

/-- C2 counterexample: at capacity 30, the entries at positions 0 and 1 are
tied at the minimum decayed relevance 0, position 1 has the strictly older
activated_at, yet activate_source evicts the entry at position 0 (the one
with the newer activated_at) and position 1 survives — so ties are not
broken by oldest activated_at. -/
theorem activate_source_tiebreak_counterexample :
    c2_sources.length = 30 ∧
    (∀ s ∈ c2_sources, ¬ s.source_id = "z") ∧
    c2_sources[0]? = some c2_entry_a ∧
    c2_sources[1]? = some c2_entry_b ∧
    c2_entry_b.activated_at < c2_entry_a.activated_at ∧
    decayed_relevance c2_entry_a.activated_at c2_now = 0 ∧
    decayed_relevance c2_entry_b.activated_at c2_now = 0 ∧
    min_relevance (apply_decay_internal c2_sources c2_now) = 0 ∧
    (∀ s ∈ activate_source c2_sources SourceType.Webpage "z" none c2_now,
      ¬ s.source_id = "a") ∧
    (∃ s ∈ activate_source c2_sources SourceType.Webpage "z" none c2_now,
      s.source_id = "b") := by
  refine ⟨by decide, by decide, rfl, rfl, by decide, ?_, ?_, ?_, ?_, ?_⟩
  · norm_num [c2_entry_a, c2_now, decayed_relevance, f32_max,
      DECAY_RATE_PER_SEC, show ((800000 : ℤ)).tdiv 1000 = 800 from rfl]
  · norm_num [c2_entry_b, c2_now, decayed_relevance, f32_max,
      DECAY_RATE_PER_SEC, show ((900000 : ℤ)).tdiv 1000 = 900 from rfl]
  · rw [c2_decay_eval]
    exact c2_min_relevance_eval.1
  · rw [c2_activate_eval]
    intro s hs
    revert s
    decide
  · refine ⟨{ c2_entry_b with relevance := 0 }, ?_, rfl⟩
    rw [c2_activate_eval]
    exact List.mem_cons_self _ _

/-- C2 (amended): when a fresh source_id is activated with the tracker at
capacity 30, decays are recomputed first and the entry at the first index
attaining the minimum decayed relevance is evicted — ties are broken by
earliest list position, not by oldest activated_at — and the tracker again
holds exactly 30 entries; the evicted entry's relevance is less than or
equal to every entry's relevance at the decision instant. -/
theorem activate_source_at_capacity (sources : List ActiveSourceEntry)
    (ty : SourceType) (sid : String) (title : Option String) (now : ℤ)
    (hlen : sources.length = 30)
    (hfresh : ∀ s ∈ sources, ¬ s.source_id = sid) :
    (activate_source sources ty sid title now).length = 30 ∧
    activate_source sources ty sid title now =
      (apply_decay_internal sources now).eraseIdx
        (min_by_relevance_idx (apply_decay_internal sources now)) ++
      [{ source_type := ty, source_id := sid, title := title,
         activated_at := now, relevance := 1 }] ∧
    (∀ s ∈ apply_decay_internal sources now,
      min_relevance (apply_decay_internal sources now) ≤ s.relevance) ∧
    (∃ s, (apply_decay_internal sources now)[min_by_relevance_idx
        (apply_decay_internal sources now)]? = some s ∧
      s.relevance = min_relevance (apply_decay_internal sources now)) ∧
    (∀ j, j < min_by_relevance_idx (apply_decay_internal sources now) →
      ∀ s, (apply_decay_internal sources now)[j]? = some s →
      min_relevance (apply_decay_internal sources now) < s.relevance) := by
  have hany : sources.any (fun s => s.source_id = sid) = false := by
    rw [List.any_eq_false]
    intro s hs
    simpa using hfresh s hs
  have hcap : MAX_ACTIVE_SOURCES ≤ sources.length := by
    rw [hlen]
    decide
  have heq : activate_source sources ty sid title now =
      (apply_decay_internal sources now).eraseIdx
        (min_by_relevance_idx (apply_decay_internal sources now)) ++
      [{ source_type := ty, source_id := sid, title := title,
         activated_at := now, relevance := 1 }] := by
    unfold activate_source
    rw [hany]
    simp only [Bool.false_eq_true, if_false, if_pos hcap]
  have hdlen : (apply_decay_internal sources now).length = 30 := by
    unfold apply_decay_internal
    rw [List.length_map, hlen]
  have hdne : apply_decay_internal sources now ≠ [] := by
    intro hnil
    rw [hnil] at hdlen
    simp at hdlen
  have hilt : min_by_relevance_idx (apply_decay_internal sources now) <
      (apply_decay_internal sources now).length := min_by_relevance_idx_lt hdne
  refine ⟨?_, heq, fun s hs => min_relevance_le hs,
    relevance_at_min_idx hdne,
    fun j hjlt s hs => min_lt_before_min_idx hjlt hs⟩
  rw [heq, List.length_append, List.length_eraseIdx]
  rw [if_pos hilt, hdlen]
  simp

/-- C2 witness: the amended theorem applied to the concrete 30-entry state. -/
theorem activate_source_at_capacity_witness :
    c2_sources.length = 30 ∧
    (activate_source c2_sources SourceType.Webpage "z" none c2_now).length = 30 :=
  ⟨by decide,
    (activate_source_at_capacity c2_sources SourceType.Webpage "z" none c2_now
      (by decide) (by decide)).1⟩

/-! ### Claim C3: decay formula, monotonicity, zero after 100 seconds -/

/-- C3: for every entry, the relevance computed by apply_decay_internal at
time t equals max(1 - 0.01 * Δsecs, 0) with Δsecs = (t - activated_at)/1000
rounded toward zero; the decayed relevance is non-increasing as the reading
time grows, and is 0 for every read at or after activated_at + 100 seconds
(100000 ms). -/
theorem relevance_decay_spec (sources : List ActiveSourceEntry) (t1 t2 : ℤ)
    (h12 : t1 ≤ t2) :
    (apply_decay_internal sources t1).map (fun s => s.relevance) =
      sources.map (fun s =>
        max (1 - DECAY_RATE_PER_SEC * (((t1 - s.activated_at).tdiv 1000 : ℤ) : ℚ)) 0) ∧
    (∀ a : ℤ, decayed_relevance a t2 ≤ decayed_relevance a t1) ∧
    (∀ a : ℤ, a + 100000 ≤ t2 → decayed_relevance a t2 = 0) := by
  refine ⟨?_, fun a => decayed_relevance_antitone h12,
    fun a ha => decayed_relevance_zero ha⟩
  unfold apply_decay_internal
  rw [List.map_map]
  refine List.map_congr_left ?_
  intro s _
  show decayed_relevance s.activated_at t1 = _
  unfold decayed_relevance
  rw [f32_max_eq_max]

/-- C3 witness: the decay spec at a concrete entry and concrete instants. -/
theorem relevance_decay_spec_witness :
    (0 : ℤ) ≤ 100000 ∧
    (∀ a : ℤ, a + 100000 ≤ 100000 → decayed_relevance a 100000 = 0) :=
  ⟨by decide, (relevance_decay_spec [] 0 100000 (by decide)).2.2⟩

/-! ### Previews and source linking (capture/types.rs, capture/source_link.rs) -/

/-- Maximum content preview length for display. -/
def PREVIEW_LENGTH : Nat := 200

/-- Helper generate_preview of capture/types.rs: Rust tests content.len(),
which is the UTF-8 byte length, against max_len; on the truncating branch it
keeps the first max_len characters of the decoded text and appends the
ellipsis marker. -/
def generate_preview (content : String) (max_len : Nat) : String :=
  if content.utf8ByteSize ≤ max_len then content
  else String.mk (content.toList.take max_len) ++ "..."

/-- Helper infer_contribution_type of capture/source_link.rs. -/
def infer_contribution_type (source_type : SourceType) (relevance : ℚ) :
    ContributionType :=
  match source_type with
  | SourceType.Clipboard =>
    if 8/10 < relevance then ContributionType.DirectCopy
    else ContributionType.Referenced
  | SourceType.AIExchange => ContributionType.AIAssisted
  | SourceType.Webpage | SourceType.Search | SourceType.Document =>
    if 7/10 < relevance then ContributionType.Referenced
    else ContributionType.Inspired

/-- SourceLink record (capture/types.rs). -/
structure SourceLink where
  id : String
  doc_id : String
  section_path : Option String
  content_hash : String
  content_preview : Option String
  created_at : ℤ
  confidence_score : ℚ
deriving DecidableEq, Repr

/-- LinkedSource record (capture/types.rs). -/
structure LinkedSource where
  id : String
  link_id : String
  source_type : SourceType
  source_id : String
  contribution_type : ContributionType
  timestamp : ℤ
deriving DecidableEq, Repr

/-- Input for creating a source link (capture/types.rs). -/
structure CreateSourceLinkInput where
  doc_id : String
  section_path : Option String
  content : String
deriving DecidableEq, Repr

/-- SourceLinker::create_source_link.  The uuid generator and the SHA-256
digest are abstracted as parameters (hash_fn for hash_content, link_id for
the link's uuid, src_ids for the per-source uuids); the tracker state and
the clock reading are explicit. -/
def create_source_link (hash_fn : String → String) (link_id : String)
    (src_ids : Nat → String) (tracker : List ActiveSourceEntry) (now : ℤ)
    (input : CreateSourceLinkInput) : SourceLink × List LinkedSource :=
  let active_sources := get_active_sources tracker now (some MIN_RELEVANCE_THRESHOLD)
  if active_sources.isEmpty then
    ({ id := link_id, doc_id := input.doc_id, section_path := input.section_path,
       content_hash := hash_fn input.content,
       content_preview := some (generate_preview input.content PREVIEW_LENGTH),
       created_at := now, confidence_score := 0 }, [])
  else
    let confidence_score : ℚ :=
      (active_sources.map (fun s => s.relevance)).sum / (active_sources.length : ℚ)
    let link : SourceLink :=
      { id := link_id, doc_id := input.doc_id, section_path := input.section_path,
        content_hash := hash_fn input.content,
        content_preview := some (generate_preview input.content PREVIEW_LENGTH),
        created_at := now, confidence_score := confidence_score }
    (link, active_sources.enum.map (fun p =>
      { id := src_ids p.1, link_id := link_id, source_type := p.2.source_type,
        source_id := p.2.source_id,
        contribution_type := infer_contribution_type p.2.source_type p.2.relevance,
        timestamp := now }))

theorem mem_get_active_sources {tracker : List ActiveSourceEntry} {now : ℤ}
    {s : ActiveSourceEntry}
    (hs : s ∈ get_active_sources tracker now (some MIN_RELEVANCE_THRESHOLD)) :
    MIN_RELEVANCE_THRESHOLD ≤ s.relevance ∧
    ∃ e ∈ tracker, s = { e with relevance := decayed_relevance e.activated_at now } := by
  unfold get_active_sources at hs
  simp only [Option.getD_some] at hs
  have h1 := List.mem_filter.mp hs
  refine ⟨of_decide_eq_true h1.2, ?_⟩
  have h2 := h1.1
  unfold apply_decay_internal at h2
  obtain ⟨e, he, heq⟩ := List.mem_map.mp h2
  exact ⟨e, he, heq.symm⟩

/-- C1: the persisted confidence score lies in the interval from 0 to 1; it
equals 0 exactly when no sources were linked, in which case the link is an
orphan (no LinkedSources, which happens exactly when the snapshot of active
sources with relevance at least 0.3 is empty); otherwise it equals the
arithmetic mean of the snapshot entries' relevances at commit time.  The
clock hypothesis states that every tracked activation happened no later
than the commit instant. -/
theorem create_source_link_confidence (hash_fn : String → String)
    (link_id : String) (src_ids : Nat → String)
    (tracker : List ActiveSourceEntry) (now : ℤ) (input : CreateSourceLinkInput)
    (hclock : ∀ s ∈ tracker, s.activated_at ≤ now) :
    0 ≤ (create_source_link hash_fn link_id src_ids tracker now input).1.confidence_score ∧
    (create_source_link hash_fn link_id src_ids tracker now input).1.confidence_score ≤ 1 ∧
    ((create_source_link hash_fn link_id src_ids tracker now input).1.confidence_score = 0 ↔
      (create_source_link hash_fn link_id src_ids tracker now input).2 = []) ∧
    ((create_source_link hash_fn link_id src_ids tracker now input).2 = [] ↔
      get_active_sources tracker now (some MIN_RELEVANCE_THRESHOLD) = []) ∧
    (get_active_sources tracker now (some MIN_RELEVANCE_THRESHOLD) ≠ [] →
      (create_source_link hash_fn link_id src_ids tracker now input).1.confidence_score =
        ((get_active_sources tracker now (some MIN_RELEVANCE_THRESHOLD)).map
          (fun s => s.relevance)).sum /
        ((get_active_sources tracker now (some MIN_RELEVANCE_THRESHOLD)).length : ℚ)) := by
  by_cases hA : get_active_sources tracker now (some MIN_RELEVANCE_THRESHOLD) = []
  · have hE : (get_active_sources tracker now (some MIN_RELEVANCE_THRESHOLD)).isEmpty = true := by
      rw [hA]
      rfl
    unfold create_source_link
    rw [if_pos hE]
    refine ⟨le_refl 0, by norm_num, by simp, by simp [hA], fun h => absurd hA h⟩
  · have hE : (get_active_sources tracker now (some MIN_RELEVANCE_THRESHOLD)).isEmpty = false := by
      cases hAs : get_active_sources tracker now (some MIN_RELEVANCE_THRESHOLD) with
      | nil => exact absurd hAs hA
      | cons a t => rfl
    have hlb : ∀ x ∈ (get_active_sources tracker now
        (some MIN_RELEVANCE_THRESHOLD)).map (fun s => s.relevance),
        MIN_RELEVANCE_THRESHOLD ≤ x := by
      intro x hx
      obtain ⟨s, hs, rfl⟩ := List.mem_map.mp hx
      exact (mem_get_active_sources hs).1
    have hub : ∀ x ∈ (get_active_sources tracker now
        (some MIN_RELEVANCE_THRESHOLD)).map (fun s => s.relevance), x ≤ 1 := by
      intro x hx
      obtain ⟨s, hs, rfl⟩ := List.mem_map.mp hx
      obtain ⟨-, e, he, rfl⟩ := mem_get_active_sources hs
      exact decayed_relevance_le_one (hclock e he)
    have hlen : 0 < (get_active_sources tracker now (some MIN_RELEVANCE_THRESHOLD)).length :=
      List.length_pos.mpr hA
    have hlenq : (0 : ℚ) < ((get_active_sources tracker now
        (some MIN_RELEVANCE_THRESHOLD)).length : ℚ) := by
      exact_mod_cast hlen
    have hsum_lb : ((get_active_sources tracker now
        (some MIN_RELEVANCE_THRESHOLD)).length : ℚ) * MIN_RELEVANCE_THRESHOLD ≤
        ((get_active_sources tracker now (some MIN_RELEVANCE_THRESHOLD)).map
          (fun s => s.relevance)).sum := by
      have h1 := List.card_nsmul_le_sum _ _ hlb
      rw [List.length_map, nsmul_eq_mul] at h1
      exact_mod_cast h1
    have hsum_ub : ((get_active_sources tracker now (some MIN_RELEVANCE_THRESHOLD)).map
        (fun s => s.relevance)).sum ≤
        ((get_active_sources tracker now (some MIN_RELEVANCE_THRESHOLD)).length : ℚ) * 1 := by
      have h1 := List.sum_le_card_nsmul _ _ hub
      rw [List.length_map, nsmul_eq_mul] at h1
      exact_mod_cast h1
    have hconf_lb : MIN_RELEVANCE_THRESHOLD ≤
        ((get_active_sources tracker now (some MIN_RELEVANCE_THRESHOLD)).map
          (fun s => s.relevance)).sum /
        ((get_active_sources tracker now (some MIN_RELEVANCE_THRESHOLD)).length : ℚ) := by
      rw [le_div_iff₀ hlenq]
      linarith [hsum_lb]
    have hconf_ub : ((get_active_sources tracker now (some MIN_RELEVANCE_THRESHOLD)).map
          (fun s => s.relevance)).sum /
        ((get_active_sources tracker now (some MIN_RELEVANCE_THRESHOLD)).length : ℚ) ≤ 1 := by
      rw [div_le_one hlenq]
      linarith [hsum_ub]
    have hsrc : (get_active_sources tracker now
        (some MIN_RELEVANCE_THRESHOLD)).enum.map (fun p =>
        ({ id := src_ids p.1, link_id := link_id, source_type := p.2.source_type,
           source_id := p.2.source_id,
           contribution_type := infer_contribution_type p.2.source_type p.2.relevance,
           timestamp := now } : LinkedSource)) ≠ [] := by
      cases hAs : get_active_sources tracker now (some MIN_RELEVANCE_THRESHOLD) with
      | nil => exact absurd hAs hA
      | cons a t => simp [List.enum_cons]
    unfold create_source_link
    rw [if_neg (by rw [hE]; exact Bool.false_ne_true)]
    have hthr : (0 : ℚ) < MIN_RELEVANCE_THRESHOLD := by
      norm_num [MIN_RELEVANCE_THRESHOLD]
    have hconf_pos : (0 : ℚ) <
        ((get_active_sources tracker now (some MIN_RELEVANCE_THRESHOLD)).map
          (fun s => s.relevance)).sum /
        ((get_active_sources tracker now (some MIN_RELEVANCE_THRESHOLD)).length : ℚ) :=
      lt_of_lt_of_le hthr hconf_lb
    refine ⟨le_trans hthr.le hconf_lb, hconf_ub, ?_, ?_, fun _ => rfl⟩
    · constructor
      · intro h0
        have h2 : ((get_active_sources tracker now (some MIN_RELEVANCE_THRESHOLD)).map
            (fun s => s.relevance)).sum /
            ((get_active_sources tracker now (some MIN_RELEVANCE_THRESHOLD)).length : ℚ) = 0 := h0
        rw [h2] at hconf_pos
        exact absurd hconf_pos (lt_irrefl 0)
      · intro h0
        exact absurd h0 hsrc
    · constructor
      · intro h0
        exact absurd h0 hsrc
      · intro h0
        exact absurd h0 hA

def c1_tracker : List ActiveSourceEntry :=
  [{ source_type := SourceType.Webpage, source_id := "w", title := none,
     activated_at := 0, relevance := 1 }]

def c1_input : CreateSourceLinkInput :=
  { doc_id := "d", section_path := none, content := "x" }

/-- C1 witness: the confidence theorem applied to a one-entry tracker read
at the activation instant. -/
theorem create_source_link_confidence_witness :
    (∀ s ∈ c1_tracker, s.activated_at ≤ 0) ∧
    0 ≤ (create_source_link (fun _ => "h") "L" (fun _ => "i")
      c1_tracker 0 c1_input).1.confidence_score :=
  ⟨by decide,
    (create_source_link_confidence (fun _ => "h") "L" (fun _ => "i")
      c1_tracker 0 c1_input (by decide)).1⟩

/-! ### Claim C6: preview truncation -/

theorem toList_length_le_utf8ByteSize (s : String) :
    s.toList.length ≤ s.utf8ByteSize := by
  obtain ⟨cs⟩ := s
  rw [String.utf8ByteSize_mk]
  show cs.length ≤ String.utf8Len cs
  induction cs with
  | nil => simp
  | cons c t ih =>
    rw [String.utf8Len_cons, List.length_cons]
    have h1 := Char.utf8Size_pos c
    omega

/-- C6 counterexample: for the two-byte, one-character input with cap 1, the
character count does not exceed the cap, yet generate_preview appends the
ellipsis marker (the branch tests the UTF-8 byte length) — so the ellipsis
is not appended iff the character count exceeds the cap. -/
theorem generate_preview_charcount_counterexample :
    ("é" : String).toList.length = 1 ∧
    ¬ (1 < ("é" : String).toList.length) ∧
    generate_preview "é" 1 = "é..." ∧
    generate_preview "é" 1 ≠ "é" := by
  decide

/-- C6 (amended): generate_preview keeps the first N characters of the
decoded text when it truncates, but the truncation/ellipsis decision is by
the input's UTF-8 byte length, not its character count: the input is
returned unchanged when its byte length is at most N, and the ellipsis is
appended when its byte length exceeds N; a character count above N still
forces truncation, since the byte length is at least the character count. -/
theorem generate_preview_spec (content : String) (N : Nat) :
    (content.utf8ByteSize ≤ N → generate_preview content N = content) ∧
    (N < content.utf8ByteSize →
      generate_preview content N = String.mk (content.toList.take N) ++ "...") ∧
    (N < content.toList.length →
      generate_preview content N = String.mk (content.toList.take N) ++ "...") := by
  refine ⟨fun h => ?_, fun h => ?_, fun h => ?_⟩
  · unfold generate_preview
    rw [if_pos h]
  · unfold generate_preview
    rw [if_neg (not_le.mpr h)]
  · have h2 : N < content.utf8ByteSize :=
      lt_of_lt_of_le h (toList_length_le_utf8ByteSize content)
    unfold generate_preview
    rw [if_neg (not_le.mpr h2)]

/-- C6 witness: the amended preview spec applied to a concrete input. -/
theorem generate_preview_spec_witness :
    3 < ("hello" : String).toList.length ∧
    generate_preview "hello" 3 = String.mk ("hello".toList.take 3) ++ "..." :=
  ⟨by decide, (generate_preview_spec "hello" 3).2.2 (by decide)⟩

/-! ### Claim C7: RingBuffer (capture/buffer.rs) -/

/-- Generic ring buffer that drops oldest items when full.  The VecDeque is
a list with the oldest element at the head. -/
structure RingBuffer (α : Type) where
  buffer : List α
  capacity : Nat
deriving DecidableEq, Repr

/-- RingBuffer::new. -/
def RingBuffer.new {α : Type} (capacity : Nat) : RingBuffer α :=
  { buffer := [], capacity := capacity }

/-- RingBuffer::push: pop the front (oldest) when at capacity, then push at
the back. -/
def RingBuffer.push {α : Type} (rb : RingBuffer α) (item : α) : RingBuffer α :=
  { rb with buffer :=
      (if rb.capacity ≤ rb.buffer.length then rb.buffer.drop 1 else rb.buffer) ++
      [item] }

/-- RingBuffer::len. -/
def RingBuffer.len {α : Type} (rb : RingBuffer α) : Nat :=
  rb.buffer.length

/-- RingBuffer::drain_all: returns all items in order and empties the
buffer. -/
def RingBuffer.drain_all {α : Type} (rb : RingBuffer α) :
    List α × RingBuffer α :=
  (rb.buffer, { rb with buffer := [] })

/-- RingBuffer::last: peek at the most recent item. -/
def RingBuffer.last {α : Type} (rb : RingBuffer α) : Option α :=
  rb.buffer.getLast?

/-- Folding RingBuffer::push over a sequence of values. -/
def push_all {α : Type} (rb : RingBuffer α) (vs : List α) : RingBuffer α :=
  vs.foldl RingBuffer.push rb

theorem push_all_eq {α : Type} (cap : Nat) (hcap : 0 < cap) :
    ∀ (vs buf : List α), buf.length ≤ cap →
      push_all { buffer := buf, capacity := cap } vs =
        { buffer := (buf ++ vs).drop (buf.length + vs.length - cap),
          capacity := cap } := by
  intro vs
  induction vs with
  | nil =>
    intro buf hle
    show ({ buffer := buf, capacity := cap } : RingBuffer α) = _
    have h0 : buf.length + ([] : List α).length - cap = 0 := by
      simp only [List.length_nil]
      omega
    rw [h0, List.append_nil, List.drop_zero]
  | cons v rest ih =>
    intro buf hle
    show push_all (RingBuffer.push { buffer := buf, capacity := cap } v) rest = _
    by_cases hb : cap ≤ buf.length
    · have hlen : buf.length = cap := le_antisymm hle hb
      have hbne : buf ≠ [] := by
        intro h0
        rw [h0] at hlen
        simp only [List.length_nil] at hlen
        omega
      have hpush : RingBuffer.push { buffer := buf, capacity := cap } v =
          { buffer := buf.drop 1 ++ [v], capacity := cap } := by
        unfold RingBuffer.push
        rw [if_pos hb]
      rw [hpush, ih _ (by
        rw [List.length_append, List.length_drop]
        simp only [List.length_cons, List.length_nil]
        omega)]
      have hamount : (buf.drop 1 ++ [v]).length + rest.length - cap = rest.length := by
        rw [List.length_append, List.length_drop]
        simp only [List.length_cons, List.length_nil]
        omega
      have hamount2 : buf.length + (v :: rest).length - cap = 1 + rest.length := by
        simp only [List.length_cons]
        omega
      rw [hamount, hamount2]
      have hsplit : (buf ++ v :: rest).drop (1 + rest.length) =
          ((buf ++ v :: rest).drop 1).drop rest.length := by
        rw [List.drop_drop]
      have hdrop1 : (buf ++ v :: rest).drop 1 = buf.drop 1 ++ v :: rest := by
        refine List.drop_append_of_le_length ?_
        cases buf with
        | nil => exact absurd rfl hbne
        | cons x xs => simp
      rw [hsplit, hdrop1]
      congr 1
      rw [List.append_assoc]
      rfl
    · have hpush : RingBuffer.push { buffer := buf, capacity := cap } v =
          { buffer := buf ++ [v], capacity := cap } := by
        unfold RingBuffer.push
        rw [if_neg hb]
      rw [hpush, ih _ (by
        rw [List.length_append]
        simp only [List.length_cons, List.length_nil]
        omega)]
      have hamount : (buf ++ [v]).length + rest.length - cap =
          buf.length + (v :: rest).length - cap := by
        rw [List.length_append]
        simp only [List.length_cons, List.length_nil]
        omega
      rw [hamount]
      congr 1
      rw [List.append_assoc]
      rfl

/-- C7: starting from an empty ring buffer of capacity C greater than 0,
the length after any push sequence never exceeds C; after more than C
pushes the contents are exactly the last C pushed values in insertion
order (all values, in order, when at most C were pushed); and drain_all
returns the contents in insertion order and leaves the buffer empty. -/
theorem ring_buffer_spec {α : Type} (C : Nat) (hC : 0 < C) (vs : List α) :
    (push_all (RingBuffer.new C) vs).buffer.length ≤ C ∧
    (C < vs.length →
      (push_all (RingBuffer.new C) vs).buffer = vs.drop (vs.length - C)) ∧
    (vs.length ≤ C → (push_all (RingBuffer.new C) vs).buffer = vs) ∧
    (∀ rb : RingBuffer α, rb.drain_all.1 = rb.buffer ∧
      rb.drain_all.2.buffer = []) := by
  have h1 : push_all (RingBuffer.new C) vs =
      { buffer := vs.drop (vs.length - C), capacity := C } := by
    have h2 := push_all_eq C hC vs [] (by simp)
    rw [show (RingBuffer.new C : RingBuffer α) =
      { buffer := [], capacity := C } from rfl, h2]
    simp
  refine ⟨?_, fun _ => by rw [h1], fun hle => ?_, fun rb => ⟨rfl, rfl⟩⟩
  · rw [h1]
    simp only [List.length_drop]
    omega
  · rw [h1]
    have h3 : vs.length - C = 0 := by omega
    rw [h3, List.drop_zero]

/-- C7 witness: the ring buffer invariants at capacity 3 with four pushes. -/
theorem ring_buffer_spec_witness :
    0 < 3 ∧ 3 < [1, 2, 3, 4].length ∧
    (push_all (RingBuffer.new 3) [1, 2, 3, 4]).buffer = [2, 3, 4] :=
  ⟨by decide, by decide,
    ((ring_buffer_spec 3 (by decide) [1, 2, 3, 4]).2.1 (by decide)).trans rfl⟩

/-! ### Claim C4: CaptureBuffer clipboard dedup guard (capture/buffer.rs) -/

/-- Clipboard copy event (capture/types.rs). -/
structure ClipboardCapture where
  id : String
  content_hash : String
  content_preview : String
  source_url : Option String
  source_title : Option String
  captured_at : ℤ
deriving DecidableEq, Repr

/-- Browse event (capture/types.rs); scroll depth is a u8 percentage. -/
structure BrowseCapture where
  id : String
  url : String
  page_title : Option String
  entered_at : ℤ
  left_at : Option ℤ
  scroll_depth_percent : Option Nat
deriving DecidableEq, Repr

/-- Search event (capture/types.rs). -/
structure SearchCapture where
  id : String
  query : String
  search_engine : String
  result_clicked : Option String
  timestamp : ℤ
deriving DecidableEq, Repr

/-- AI question/answer pair (capture/types.rs). -/
structure AIExchangeCapture where
  id : String
  question_hash : String
  question_preview : String
  answer_hash : String
  answer_preview : String
  model : String
  context_doc_id : Option String
  timestamp : ℤ
deriving DecidableEq, Repr

/-- Document edit event (capture/types.rs). -/
structure DocEditCapture where
  id : String
  doc_id : String
  doc_title : String
  edit_preview : String
  char_delta : ℤ
  started_at : ℤ
  ended_at : ℤ
deriving DecidableEq, Repr

def CLIPBOARD_CAPACITY : Nat := 50
def BROWSE_CAPACITY : Nat := 100
def SEARCH_CAPACITY : Nat := 50
def AI_EXCHANGE_CAPACITY : Nat := 20
def DOC_EDIT_CAPACITY : Nat := 50

/-- Coordinated capture buffer managing all ring buffers plus the last
clipboard content hash used for duplicate detection (capture/buffer.rs). -/
structure CaptureBuffer where
  clipboard : RingBuffer ClipboardCapture
  browse : RingBuffer BrowseCapture
  search : RingBuffer SearchCapture
  ai_exchange : RingBuffer AIExchangeCapture
  doc_edit : RingBuffer DocEditCapture
  last_clipboard_hash : Option String
deriving DecidableEq, Repr

/-- CaptureBuffer::new. -/
def CaptureBuffer.new : CaptureBuffer :=
  { clipboard := RingBuffer.new CLIPBOARD_CAPACITY,
    browse := RingBuffer.new BROWSE_CAPACITY,
    search := RingBuffer.new SEARCH_CAPACITY,
    ai_exchange := RingBuffer.new AI_EXCHANGE_CAPACITY,
    doc_edit := RingBuffer.new DOC_EDIT_CAPACITY,
    last_clipboard_hash := none }

/-- CaptureBuffer::push_clipboard: skip (returning false) when the incoming
content hash equals the stored last hash; otherwise record the hash and push
in the same step, returning true. -/
def CaptureBuffer.push_clipboard (cb : CaptureBuffer)
    (capture : ClipboardCapture) : Bool × CaptureBuffer :=
  if cb.last_clipboard_hash = some capture.content_hash then
    (false, cb)
  else
    (true, { cb with last_clipboard_hash := some capture.content_hash,
                     clipboard := cb.clipboard.push capture })

/-- Abbreviation for the accepted-push state of push_clipboard, used in the
dedup proofs. -/
def push_accept (cb : CaptureBuffer) (c : ClipboardCapture) : CaptureBuffer :=
  { cb with last_clipboard_hash := some c.content_hash,
            clipboard := cb.clipboard.push c }

def c4_state : CaptureBuffer :=
  { CaptureBuffer.new with last_clipboard_hash := some "h1" }

def c4_cap1 : ClipboardCapture :=
  { id := "1", content_hash := "h1", content_preview := "p",
    source_url := none, source_title := none, captured_at := 0 }

def c4_cap2 : ClipboardCapture :=
  { id := "2", content_hash := "h1", content_preview := "p",
    source_url := none, source_title := none, captured_at := 1 }

/-- C4 counterexample: when the buffer's last_clipboard_hash already equals
the incoming digest, a pair of consecutive push_clipboard calls with equal
content_hash stores zero entries, not exactly one — both calls are
rejected. -/
theorem push_clipboard_pair_counterexample :
    c4_cap1.content_hash = c4_cap2.content_hash ∧
    (c4_state.push_clipboard c4_cap1).1 = false ∧
    ((c4_state.push_clipboard c4_cap1).2.push_clipboard c4_cap2).1 = false ∧
    ((c4_state.push_clipboard c4_cap1).2.push_clipboard
      c4_cap2).2.clipboard.buffer = [] := by
  decide

/-- C4 (amended): for consecutive push_clipboard calls with equal
content_hash, the second call always returns false and leaves the state
unchanged; a call returns false iff the incoming digest equals the stored
last_clipboard_hash; and an accepted call updates last_clipboard_hash
together with the ring push — so the pair stores exactly one entry when the
first call is accepted (and zero when the guard already holds the digest). -/
theorem push_clipboard_dedup (cb : CaptureBuffer) (c1 c2 : ClipboardCapture)
    (hhash : c1.content_hash = c2.content_hash) :
    ((cb.push_clipboard c1).2.push_clipboard c2).1 = false ∧
    ((cb.push_clipboard c1).2.push_clipboard c2).2 = (cb.push_clipboard c1).2 ∧
    ((cb.push_clipboard c1).1 = false ↔
      cb.last_clipboard_hash = some c1.content_hash) ∧
    ((cb.push_clipboard c1).1 = true →
      (cb.push_clipboard c1).2.last_clipboard_hash = some c1.content_hash ∧
      (cb.push_clipboard c1).2.clipboard = cb.clipboard.push c1) := by
  by_cases h : cb.last_clipboard_hash = some c1.content_hash
  · have h1 : cb.push_clipboard c1 = (false, cb) := by
      unfold CaptureBuffer.push_clipboard
      rw [if_pos h]
    have h2 : cb.push_clipboard c2 = (false, cb) := by
      unfold CaptureBuffer.push_clipboard
      rw [if_pos (hhash ▸ h)]
    rw [h1]
    refine ⟨?_, ?_, ?_, ?_⟩
    · show (cb.push_clipboard c2).1 = false
      rw [h2]
    · show (cb.push_clipboard c2).2 = cb
      rw [h2]
    · exact ⟨fun _ => h, fun _ => rfl⟩
    · intro hfalse
      exact Bool.noConfusion hfalse
  · have h1 : cb.push_clipboard c1 = (true, push_accept cb c1) := by
      unfold CaptureBuffer.push_clipboard
      rw [if_neg h]
      rfl
    have h2 : (push_accept cb c1).push_clipboard c2 =
        (false, push_accept cb c1) := by
      unfold CaptureBuffer.push_clipboard
      rw [if_pos ?_]
      show (push_accept cb c1).last_clipboard_hash = some c2.content_hash
      show some c1.content_hash = some c2.content_hash
      rw [hhash]
    rw [h1]
    refine ⟨?_, ?_, ?_, fun _ => ⟨rfl, rfl⟩⟩
    · show ((push_accept cb c1).push_clipboard c2).1 = false
      rw [h2]
    · show ((push_accept cb c1).push_clipboard c2).2 = push_accept cb c1
      rw [h2]
    · constructor
      · intro h0
        exact Bool.noConfusion h0
      · intro h0
        exact absurd h0 h

/-- C4 witness: the dedup theorem applied to a fresh buffer and two captures
sharing a digest. -/
theorem push_clipboard_dedup_witness :
    c4_cap1.content_hash = c4_cap2.content_hash ∧
    ((CaptureBuffer.new.push_clipboard c4_cap1).2.push_clipboard c4_cap2).1 = false :=
  ⟨by decide,
    (push_clipboard_dedup CaptureBuffer.new c4_cap1 c4_cap2 (by decide)).1⟩

/-! ### Claims C5 and C9: EventBuffer flush and local summary
(workstream/buffer.rs) -/

def MAX_BUFFER_SIZE : Nat := 100
def MIN_EVENTS_FOR_BLOCK : Nat := 2

/-- Buffered event (workstream/types.rs). -/
structure BufferedEvent where
  id : String
  timestamp : ℤ
  event_type : EventType
  context_type : ContextType
  context_id : Option String
  context_title : Option String
  url : Option String
  delta : Option ℤ
deriving DecidableEq, Repr

/-- Result of flushing the buffer (workstream/buffer.rs). -/
structure FlushResult where
  events : List BufferedEvent
  started_at : ℤ
  ended_at : ℤ
  context_type : ContextType
  context_id : Option String
  context_title : Option String
  edit_count : ℤ
  browse_count : ℤ
  research_urls : List String
  auto_summary : String
deriving DecidableEq, Repr

/-- Rust slice join with a separator, as used for parts.join. -/
def join_comma : List String → String
  | [] => ""
  | [s] => s
  | s :: rest => s ++ ", " ++ join_comma rest

/-- Helper generate_local_summary of workstream/buffer.rs: a deterministic
template over the event-type tallies and the context title. -/
def generate_local_summary (events : List BufferedEvent)
    (context_title : Option String) : String :=
  let edit_count := (events.filter (fun e => e.event_type = EventType.Edit)).length
  let browse_count := (events.filter (fun e => e.event_type = EventType.Browse)).length
  let search_count := (events.filter (fun e => e.event_type = EventType.Search)).length
  let tool_count := (events.filter (fun e => e.event_type = EventType.Tool)).length
  let save_count := (events.filter (fun e => e.event_type = EventType.Save)).length
  let title := context_title.getD "document"
  let parts1 : List String :=
    if 0 < edit_count then
      [if 0 < save_count then "Edited and saved " ++ title
       else "Edited " ++ title]
    else []
  let parts2 : List String := parts1 ++
    (if 0 < browse_count then
      [if 0 < edit_count then
        "with " ++ toString browse_count ++ " site" ++
          (if 1 < browse_count then "s" else "") ++ " researched"
       else
        "Browsed " ++ toString browse_count ++ " site" ++
          (if 1 < browse_count then "s" else "")]
     else [])
  let parts3 : List String := parts2 ++
    (if 0 < search_count ∧ parts2 = [] then
      ["Searched " ++ toString search_count ++ " time" ++
        (if 1 < search_count then "s" else "")]
     else [])
  let parts4 : List String := parts3 ++
    (if 0 < tool_count then
      [if parts3 = [] then
        "Used " ++ toString tool_count ++ " tool" ++
          (if 1 < tool_count then "s" else "")
       else
        "using " ++ toString tool_count ++ " tool" ++
          (if 1 < tool_count then "s" else "")]
     else [])
  if parts4 = [] then "Brief activity on " ++ title
  else join_comma parts4

/-- URLs of the Browse events of a batch, in buffer (insertion) order. -/
def browse_urls (events : List BufferedEvent) : List String :=
  (events.filter (fun e => e.event_type = EventType.Browse)).filterMap
    (fun e => e.url)

/-- Admissible iteration orders of a Rust HashSet collected from the given
elements: each distinct element appears exactly once, in an arbitrary
(unspecified) order — a permutation of the distinct elements. -/
def IsHashSetIteration (elems order : List String) : Prop :=
  order.Perm elems.dedup

instance (elems order : List String) : Decidable (IsHashSetIteration elems order) :=
  List.decidablePerm order elems.dedup

/-- EventBuffer::flush on a drained batch of events.  The iteration order of
the HashSet that collects the distinct browse URLs is not determined by the
source (Rust HashSet order is randomized), so it is passed as the
url_set_iter parameter, constrained by IsHashSetIteration at use sites. -/
def flush (events : List BufferedEvent) (url_set_iter : List String) :
    Option FlushResult :=
  if events.length < MIN_EVENTS_FOR_BLOCK then none
  else
    let started_at := (events.head?.map (fun e => e.timestamp)).getD 0
    let ended_at := (events.getLast?.map (fun e => e.timestamp)).getD started_at
    let edit_count :=
      ((events.filter (fun e => e.event_type = EventType.Edit)).length : ℤ)
    let browse_count :=
      ((events.filter (fun e => e.event_type = EventType.Browse)).length : ℤ)
    let research_urls := url_set_iter.take 5
    let context_type :=
      match events with
      | [] => ContextType.Mixed
      | e :: rest =>
        if rest.all (fun x => x.context_type = e.context_type) then
          e.context_type
        else ContextType.Mixed
    let context_id := events.head?.bind (fun e => e.context_id)
    let context_title := events.findSome? (fun e => e.context_title)
    some { events := events, started_at := started_at, ended_at := ended_at,
           context_type := context_type, context_id := context_id,
           context_title := context_title, edit_count := edit_count,
           browse_count := browse_count, research_urls := research_urls,
           auto_summary := generate_local_summary events context_title }

/-- Stated from the spec sentence for comparison: distinct browse URLs with
first occurrences kept in insertion order, capped at 5. -/
def spec_research_urls (events : List BufferedEvent) : List String :=
  ((browse_urls events).foldl
    (fun acc u => if u ∈ acc then acc else acc ++ [u]) []).take 5

def c5_browse (i u : String) : BufferedEvent :=
  { id := i, timestamp := 0, event_type := EventType.Browse,
    context_type := ContextType.Document, context_id := some "d",
    context_title := some "T", url := some u, delta := none }

def c5_events : List BufferedEvent := [c5_browse "1" "u1", c5_browse "2" "u2"]

/-- C5 counterexample: a two-browse batch whose HashSet iteration yields the
reverse of insertion order is admissible, and flush then returns
research_urls in an order different from the Browse insertion order — the
insertion-order claim does not hold for every flush. -/
theorem flush_research_urls_counterexample :
    IsHashSetIteration (browse_urls c5_events) ["u2", "u1"] ∧
    spec_research_urls c5_events = ["u1", "u2"] ∧
    (flush c5_events ["u2", "u1"]).map (fun r => r.research_urls) =
      some ["u2", "u1"] ∧
    (["u2", "u1"] : List String) ≠ ["u1", "u2"] := by
  decide

/-- C5 (amended): whenever flush returns a result, research_urls is a list
of at most 5 pairwise-distinct URLs, each the URL of some Browse event of
the flushed batch; the order is the HashSet iteration order, which is not
guaranteed to be insertion order. -/
theorem flush_research_urls_spec (events : List BufferedEvent)
    (order : List String) (h : IsHashSetIteration (browse_urls events) order)
    (r : FlushResult) (hr : flush events order = some r) :
    r.research_urls.length ≤ 5 ∧ r.research_urls.Nodup ∧
    ∀ u ∈ r.research_urls, u ∈ browse_urls events := by
  have hurls : r.research_urls = order.take 5 := by
    unfold flush at hr
    by_cases hlen : events.length < MIN_EVENTS_FOR_BLOCK
    · rw [if_pos hlen] at hr
      exact Option.noConfusion hr
    · rw [if_neg hlen] at hr
      injection hr with hr
      rw [← hr]
  have hnodup : order.Nodup := h.symm.nodup (List.nodup_dedup _)
  refine ⟨?_, ?_, ?_⟩
  · rw [hurls]
    exact List.length_take_le 5 order
  · rw [hurls]
    exact (List.take_sublist 5 order).nodup hnodup
  · intro u hu
    rw [hurls] at hu
    have h1 : u ∈ order := List.mem_of_mem_take hu
    have h2 : u ∈ (browse_urls events).dedup := h.subset h1
    exact List.mem_dedup.mp h2

def c5_result : FlushResult :=
  { events := c5_events, started_at := 0, ended_at := 0,
    context_type := ContextType.Document, context_id := some "d",
    context_title := some "T", edit_count := 0, browse_count := 2,
    research_urls := ["u2", "u1"], auto_summary := "Browsed 2 sites" }

/-- C5 witness: the amended flush spec applied to the concrete two-browse
batch. -/
theorem flush_research_urls_spec_witness :
    IsHashSetIteration (browse_urls c5_events) ["u2", "u1"] ∧
    flush c5_events ["u2", "u1"] = some c5_result ∧
    c5_result.research_urls.length ≤ 5 :=
  ⟨by decide, by decide,
    (flush_research_urls_spec c5_events ["u2", "u1"] (by decide)
      c5_result (by decide)).1⟩

def c9_edit : BufferedEvent :=
  { id := "e", timestamp := 0, event_type := EventType.Edit,
    context_type := ContextType.Document, context_id := some "d",
    context_title := some "T", url := none, delta := none }

def c9_save : BufferedEvent :=
  { id := "s", timestamp := 4, event_type := EventType.Save,
    context_type := ContextType.Document, context_id := some "d",
    context_title := some "T", url := none, delta := none }

def c9_events : List BufferedEvent :=
  [c9_edit, c9_edit, c5_browse "3" "u1", c5_browse "4" "u2", c9_save]

/-- C9 counterexample: for a batch with 2 edits, 2 distinct-site browses and
a save under title T, the generated summary joins its two template parts
with a comma — "Edited and saved T, with 2 sites researched" — and is not
the comma-free sentence of the claimed form. -/
theorem generate_local_summary_counterexample :
    generate_local_summary c9_events (some "T") =
      "Edited and saved T, with 2 sites researched" ∧
    generate_local_summary c9_events (some "T") ≠
      "Edited and saved T with 2 sites researched" := by
  decide

/-- C9 (amended): for a flushed batch with at least one edit, at least one
save, no tool events and exactly 2 (resp. 1) browse events, the summary is
"Edited and saved T, with 2 sites researched" (resp. "..., with 1 site
researched") — the parts are joined with a comma and the plural form agrees
with the browse count. -/
theorem generate_local_summary_templates (events : List BufferedEvent)
    (title : String)
    (he : 0 < (events.filter (fun e => e.event_type = EventType.Edit)).length)
    (hs : 0 < (events.filter (fun e => e.event_type = EventType.Save)).length)
    (ht : (events.filter (fun e => e.event_type = EventType.Tool)).length = 0) :
    ((events.filter (fun e => e.event_type = EventType.Browse)).length = 2 →
      generate_local_summary events (some title) =
        "Edited and saved " ++ title ++ ", with 2 sites researched") ∧
    ((events.filter (fun e => e.event_type = EventType.Browse)).length = 1 →
      generate_local_summary events (some title) =
        "Edited and saved " ++ title ++ ", with 1 site researched") := by
  constructor
  · intro hb
    unfold generate_local_summary
    rw [hb, ht]
    simp only [Option.getD_some, if_pos he, if_pos hs]
    simp [join_comma]
    rw [String.append_assoc]
    rfl
  · intro hb
    unfold generate_local_summary
    rw [hb, ht]
    simp only [Option.getD_some, if_pos he, if_pos hs]
    simp [join_comma]
    rw [String.append_assoc]
    rfl

/-- C9 witness: the template theorem applied to the concrete
edit/browse/save batch. -/
theorem generate_local_summary_templates_witness :
    0 < (c9_events.filter (fun e => e.event_type = EventType.Edit)).length ∧
    ((c9_events.filter (fun e => e.event_type = EventType.Browse)).length = 2 →
      generate_local_summary c9_events (some "T") =
        "Edited and saved " ++ "T" ++ ", with 2 sites researched") :=
  ⟨by decide,
    (generate_local_summary_templates c9_events "T" (by decide) (by decide)
      (by decide)).1⟩

/-! ### Claim C8: WorkBlock creation (workstream/storage.rs) -/

/-- ContextType::from_str with the default Mixed for unknown strings. -/
def ContextType.from_str (s : String) : ContextType :=
  match s with
  | "document" => ContextType.Document
  | "task" => ContextType.Task
  | "browser" => ContextType.Browser
  | "manual" => ContextType.Manual
  | _ => ContextType.Mixed

/-- Work block record (workstream/types.rs). -/
structure WorkBlock where
  id : String
  session_id : Option String
  context_type : ContextType
  context_id : Option String
  context_title : Option String
  started_at : ℤ
  ended_at : ℤ
  duration_secs : ℤ
  auto_summary : Option String
  edit_count : ℤ
  browse_count : ℤ
  research_urls : List String
  user_summary : Option String
  notes : Option String
  tags : List String
  is_pinned : Bool
  is_manual : Bool
  created_at : ℤ
  updated_at : ℤ
deriving DecidableEq, Repr

/-- Input for creating a work block from a buffer flush
(workstream/types.rs). -/
structure CreateBlockInput where
  context_type : String
  context_id : Option String
  context_title : Option String
  started_at : ℤ
  ended_at : ℤ
  auto_summary : Option String
  edit_count : ℤ
  browse_count : ℤ
  research_urls : List String
deriving DecidableEq, Repr

/-- Input for creating a manual work block (workstream/types.rs). -/
structure ManualBlockInput where
  context_type : Option String
  context_id : Option String
  context_title : Option String
  started_at : ℤ
  ended_at : ℤ
  user_summary : String
  notes : Option String
  tags : Option (List String)
deriving DecidableEq, Repr

/-- Two's-complement wrap into the signed 32-bit range, the meaning of the
Rust cast as i32 applied to an i64. -/
def wrap_i32 (x : ℤ) : ℤ :=
  (x + 2 ^ 31) % 2 ^ 32 - 2 ^ 31

/-- Database::create_ws_block: duration_secs is the i64 difference divided
by 1000 with truncation toward zero, then cast to i32; uuid and clock are
parameters. -/
def create_ws_block (input : CreateBlockInput) (id : String) (now : ℤ) :
    WorkBlock :=
  let duration_secs := wrap_i32 ((input.ended_at - input.started_at).tdiv 1000)
  { id := id, session_id := none,
    context_type := ContextType.from_str input.context_type,
    context_id := input.context_id, context_title := input.context_title,
    started_at := input.started_at, ended_at := input.ended_at,
    duration_secs := duration_secs, auto_summary := input.auto_summary,
    edit_count := input.edit_count, browse_count := input.browse_count,
    research_urls := input.research_urls, user_summary := none, notes := none,
    tags := [], is_pinned := false, is_manual := false,
    created_at := now, updated_at := now }

/-- Database::create_manual_block. -/
def create_manual_block (input : ManualBlockInput) (id : String) (now : ℤ) :
    WorkBlock :=
  let duration_secs := wrap_i32 ((input.ended_at - input.started_at).tdiv 1000)
  let context_type := input.context_type.getD "manual"
  { id := id, session_id := none,
    context_type := ContextType.from_str context_type,
    context_id := input.context_id, context_title := input.context_title,
    started_at := input.started_at, ended_at := input.ended_at,
    duration_secs := duration_secs, auto_summary := none,
    edit_count := 0, browse_count := 0, research_urls := [],
    user_summary := some input.user_summary, notes := input.notes,
    tags := input.tags.getD [], is_pinned := false, is_manual := true,
    created_at := now, updated_at := now }

theorem wrap_i32_eq_self {x : ℤ} (h1 : -(2 ^ 31) ≤ x) (h2 : x < 2 ^ 31) :
    wrap_i32 x = x := by
  unfold wrap_i32
  omega

def c8_manual_input : ManualBlockInput :=
  { context_type := none, context_id := none, context_title := none,
    started_at := 1000, ended_at := 0, user_summary := "s", notes := none,
    tags := none }

/-- C8 counterexample: create_manual_block persists a block whose ended_at
(0) is strictly before its started_at (1000) — the ordering invariant is
not enforced — and the stored duration is the negative truncated quotient
-1. -/
theorem work_block_order_counterexample :
    (create_manual_block c8_manual_input "b1" 5000).ended_at <
      (create_manual_block c8_manual_input "b1" 5000).started_at ∧
    (create_manual_block c8_manual_input "b1" 5000).duration_secs = -1 := by
  decide

/-- C8 (amended): blocks persisted by create_ws_block and
create_manual_block store started_at and ended_at exactly as given, and
duration_secs equals (ended_at - started_at)/1000 truncated toward zero
whenever that quotient fits in the i32 range (the cast wraps otherwise);
ended_at at least started_at is not enforced. -/
theorem work_block_duration_spec (input : CreateBlockInput)
    (input2 : ManualBlockInput) (id id2 : String) (now now2 : ℤ)
    (hfit : -(2 ^ 31) ≤ (input.ended_at - input.started_at).tdiv 1000 ∧
      (input.ended_at - input.started_at).tdiv 1000 < 2 ^ 31)
    (hfit2 : -(2 ^ 31) ≤ (input2.ended_at - input2.started_at).tdiv 1000 ∧
      (input2.ended_at - input2.started_at).tdiv 1000 < 2 ^ 31) :
    (create_ws_block input id now).started_at = input.started_at ∧
    (create_ws_block input id now).ended_at = input.ended_at ∧
    (create_ws_block input id now).duration_secs =
      (input.ended_at - input.started_at).tdiv 1000 ∧
    (create_manual_block input2 id2 now2).started_at = input2.started_at ∧
    (create_manual_block input2 id2 now2).ended_at = input2.ended_at ∧
    (create_manual_block input2 id2 now2).duration_secs =
      (input2.ended_at - input2.started_at).tdiv 1000 := by
  refine ⟨rfl, rfl, ?_, rfl, rfl, ?_⟩
  · show wrap_i32 ((input.ended_at - input.started_at).tdiv 1000) = _
    exact wrap_i32_eq_self hfit.1 hfit.2
  · show wrap_i32 ((input2.ended_at - input2.started_at).tdiv 1000) = _
    exact wrap_i32_eq_self hfit2.1 hfit2.2

def c8_ws_input : CreateBlockInput :=
  { context_type := "document", context_id := some "d",
    context_title := some "T", started_at := 0, ended_at := 2500,
    auto_summary := some "Edited T", edit_count := 1, browse_count := 0,
    research_urls := [] }

/-- C8 witness: the duration spec applied to concrete inputs. -/
theorem work_block_duration_spec_witness :
    (-(2 ^ 31) ≤ (c8_ws_input.ended_at - c8_ws_input.started_at).tdiv 1000 ∧
      (c8_ws_input.ended_at - c8_ws_input.started_at).tdiv 1000 < 2 ^ 31) ∧
    (create_ws_block c8_ws_input "b" 9000).duration_secs =
      (c8_ws_input.ended_at - c8_ws_input.started_at).tdiv 1000 :=
  ⟨by decide,
    (work_block_duration_spec c8_ws_input c8_manual_input "b" "b1" 9000 5000
      (by decide) (by decide)).2.2.1⟩

/-! ### Claim C10: batch inserts with INSERT OR IGNORE (capture/storage.rs) -/

/-- Effect of one INSERT OR IGNORE on a table keyed by id: the row is added
unless a row with the same id already exists. -/
def insert_or_ignore_clipboard (table : List ClipboardCapture)
    (c : ClipboardCapture) : List ClipboardCapture :=
  if table.any (fun r => r.id = c.id) then table else table ++ [c]

/-- Database::insert_clipboard_captures: early return 0 on the empty batch;
otherwise one INSERT OR IGNORE per capture, incrementing the returned count
unconditionally — even when the row is ignored. -/
def insert_clipboard_captures (table : List ClipboardCapture)
    (captures : List ClipboardCapture) : Nat × List ClipboardCapture :=
  if captures.isEmpty then (0, table)
  else captures.foldl
    (fun acc c => (acc.1 + 1, insert_or_ignore_clipboard acc.2 c)) (0, table)

/-- Effect of one INSERT OR IGNORE on the doc_edit_captures table. -/
def insert_or_ignore_doc_edit (table : List DocEditCapture)
    (c : DocEditCapture) : List DocEditCapture :=
  if table.any (fun r => r.id = c.id) then table else table ++ [c]

/-- Database::insert_doc_edit_captures, same counting structure. -/
def insert_doc_edit_captures (table : List DocEditCapture)
    (captures : List DocEditCapture) : Nat × List DocEditCapture :=
  if captures.isEmpty then (0, table)
  else captures.foldl
    (fun acc c => (acc.1 + 1, insert_or_ignore_doc_edit acc.2 c)) (0, table)

theorem foldl_insert_count {α β : Type} (g : β → α → β) :
    ∀ (l : List α) (n : Nat) (t : β),
      (l.foldl (fun acc c => (acc.1 + 1, g acc.2 c)) (n, t)).1 = n + l.length := by
  intro l
  induction l with
  | nil =>
    intro n t
    simp
  | cons c rest ih =>
    intro n t
    show (rest.foldl _ (n + 1, g t c)).1 = _
    rw [ih]
    simp only [List.length_cons]
    omega

def c10_row : ClipboardCapture :=
  { id := "id1", content_hash := "h", content_preview := "p",
    source_url := none, source_title := none, captured_at := 0 }

/-- C10: for every non-empty batch, the count returned by the clipboard and
doc-edit batch inserts equals the length of the input batch, regardless of
how many rows INSERT OR IGNORE actually added; replaying a row whose id is
already present still reports count 1 while the table is unchanged, so the
reported count can exceed the number of rows actually added. -/
theorem insert_batch_count (table captures : List ClipboardCapture)
    (dtable dcaptures : List DocEditCapture)
    (h : captures ≠ []) (h2 : dcaptures ≠ []) :
    (insert_clipboard_captures table captures).1 = captures.length ∧
    (insert_doc_edit_captures dtable dcaptures).1 = dcaptures.length ∧
    (insert_clipboard_captures [c10_row] [c10_row]).1 = 1 ∧
    (insert_clipboard_captures [c10_row] [c10_row]).2 = [c10_row] := by
  have hE : captures.isEmpty = false := by
    cases captures with
    | nil => exact absurd rfl h
    | cons a t => rfl
  have hE2 : dcaptures.isEmpty = false := by
    cases dcaptures with
    | nil => exact absurd rfl h2
    | cons a t => rfl
  refine ⟨?_, ?_, by decide, by decide⟩
  · unfold insert_clipboard_captures
    rw [if_neg (by rw [hE]; exact Bool.false_ne_true)]
    rw [foldl_insert_count]
    omega
  · unfold insert_doc_edit_captures
    rw [if_neg (by rw [hE2]; exact Bool.false_ne_true)]
    rw [foldl_insert_count]
    omega

def c10_doc_row : DocEditCapture :=
  { id := "d1", doc_id := "doc", doc_title := "T", edit_preview := "e",
    char_delta := 3, started_at := 0, ended_at := 1 }

/-- C10 witness: the batch-count theorem applied to concrete one-row
batches. -/
theorem insert_batch_count_witness :
    ([c10_row] ≠ ([] : List ClipboardCapture)) ∧
    (insert_clipboard_captures [] [c10_row]).1 = [c10_row].length :=
  ⟨by decide,
    (insert_batch_count [] [c10_row] [] [c10_doc_row] (by decide)
      (by decide)).1⟩

end KuseCowork
